import Mathlib

/-!
Shallow embedding of the discard ("punch hole") core of mirage-block-unix
(src/lib/discard_stubs.c).  The worker function `worker_discard` has two
platform variants selected by the C preprocessor:

* the Darwin variant (lines 61-132) queries the filesystem block size with
  fstatfs, zero-fills the unaligned head with pwrite, punches the aligned
  middle with fcntl(F_PUNCHHOLE) and zero-fills the unaligned tail with
  pwrite, stopping at the first failing call;
* the Linux variant (lines 133-157) classifies the handle with fstat, uses
  ioctl(BLKDISCARD) for block devices and fallocate(FALLOC_FL_PUNCH_HOLE)
  for regular files.

OS calls are modelled by an oracle giving each call a result (errno on
failure); the embedding records the sequence of calls performed (including
the malloc of the temporary zero buffers, so that buffer release can be
talked about), the final errno_copy / error_fn fields of the job, and
whether every C assert evaluated along the way held.

All machine arithmetic in the C is 64-bit (size_t / off_t / uint64_t); it
is embedded as Nat with explicit reduction modulo W = 2^64 at the points
where the C can wrap (the x - 1 in ALIGNUP, the negation in ALIGNDOWN, the
pointer-difference subtraction, and the advancing fp_offset).
-/

/-- Width of the 64-bit machine words (size_t, off_t, uint64_t) used by the C. -/
def W : Nat := 2 ^ 64

/-- Bitwise 64-bit complement, as computed on a size_t value below W. -/
def not64 (y : Nat) : Nat := (W - 1) - y % W

/-- ALIGNUP(x, a) = (((x - 1) & ~(a - 1)) + a) in size_t arithmetic
(discard_stubs.c line 50); the subtractions x - 1 and a - 1 wrap mod 2^64. -/
def ALIGNUP (x a : Nat) : Nat :=
  ((((x + (W - 1)) % W) &&& not64 ((a + (W - 1)) % W)) + a) % W

/-- ALIGNDOWN(x, a) = (-(a) & (x)) in size_t arithmetic
(discard_stubs.c line 54); -(a) is the two-complement negation mod 2^64. -/
def ALIGNDOWN (x a : Nat) : Nat := ((W - a % W) % W) &&& x

/-- One OS-level action performed by the worker.  malloc records the
allocation of a temporary zero-fill buffer; the source never emits a
matching free, and the embedding mirrors that. -/
inductive Call where
  | fstatfs
  | malloc (size : Nat)
  | free
  | pwrite (off len : Nat)
  | punchhole (off len : Nat)
  | fstat
  | blkdiscard (off len : Nat)
  | fallocate (off len : Nat)
deriving DecidableEq

/-- Result oracle for the OS calls made on the Darwin path: the fstatfs
result (errno, or the f_bsize it reports), and the result of each
pwrite / fcntl(F_PUNCHHOLE) as a function of its arguments. -/
structure OSDarwin where
  fstatfsRes : Except Nat Nat
  pwriteRes : Nat → Nat → Except Nat Unit
  punchholeRes : Nat → Nat → Except Nat Unit

/-- Result oracle for the OS calls made on the Linux path: the fstat
result (errno, or whether S_ISBLK holds), and the result of each
ioctl(BLKDISCARD) / fallocate as a function of its arguments. -/
structure OSLinux where
  fstatRes : Except Nat Bool
  blkdiscardRes : Nat → Nat → Except Nat Unit
  fallocateRes : Nat → Nat → Except Nat Unit

/-- Final state of a job_discard after worker_discard ran: the errno_copy
and error_fn fields, the list of OS actions performed in order, and
whether every assert that was evaluated held. -/
structure JobResult where
  errno_copy : Nat
  error_fn : String
  calls : List Call
  assertsOk : Bool
deriving DecidableEq

/-- Lines 116-130 of discard_stubs.c: the trailing zero-fill.  If any
length remains it must be an unaligned tail (two asserts), a zero buffer
is allocated and written over [fp_offset, fp_offset + fp_length); on
pwrite failure errno and "pwrite" are recorded, otherwise line 131 sets
errno_copy to 0 (error_fn keeps its initial "unknown"). -/
def zeroTail (os : OSDarwin) (a fp_offset fp_length : Nat)
    (calls : List Call) (ok : Bool) : JobResult :=
  if 0 < fp_length then
    let ok := ok && decide (fp_length < a) && decide (fp_offset % a = 0)
    let calls := calls ++ [Call.malloc fp_length, Call.pwrite fp_offset fp_length]
    match os.pwriteRes fp_offset fp_length with
    | Except.error e => ⟨e, "pwrite", calls, ok⟩
    | Except.ok _ => ⟨0, "unknown", calls, ok⟩
  else ⟨0, "unknown", calls, ok⟩

/-- Lines 95-115 of discard_stubs.c: the aligned middle.  aligned_length =
ALIGNDOWN(fp_length, a); if it is at least one block the working offset
must be aligned (assert) and fcntl(F_PUNCHHOLE) is issued on
[fp_offset, fp_offset + aligned_length); on failure errno and
"fcntl(F_PUNCHHOLE)" are recorded, on success the working range advances
past the punched middle and the tail step runs. -/
def punchMiddle (os : OSDarwin) (a fp_offset fp_length : Nat)
    (calls : List Call) (ok : Bool) : JobResult :=
  let aligned_length := ALIGNDOWN fp_length a
  if a ≤ aligned_length then
    let ok := ok && decide (fp_offset % a = 0)
    let calls := calls ++ [Call.punchhole fp_offset aligned_length]
    match os.punchholeRes fp_offset aligned_length with
    | Except.error e => ⟨e, "fcntl(F_PUNCHHOLE)", calls, ok⟩
    | Except.ok _ =>
        zeroTail os a ((fp_offset + aligned_length) % W) (fp_length - aligned_length) calls ok
  else zeroTail os a fp_offset fp_length calls ok

/-- Lines 77-93 of discard_stubs.c: the leading zero-fill.  aligned_offset
= ALIGNUP(fp_offset, a); if the offset is not already aligned,
len_to_zero = MIN(fp_length, aligned_offset - fp_offset) (size_t
subtraction, mod 2^64) must be less than a block (assert), a zero buffer
is allocated and written at fp_offset; on pwrite failure errno and
"pwrite" are recorded, on success the working range advances past the
head and the middle step runs. -/
def zeroHead (os : OSDarwin) (a fp_offset fp_length : Nat) : JobResult :=
  let aligned_offset := ALIGNUP fp_offset a
  if aligned_offset ≠ fp_offset then
    let len_to_zero := min fp_length ((aligned_offset + (W - fp_offset % W)) % W)
    let ok := decide (len_to_zero < a)
    let calls := [Call.fstatfs, Call.malloc len_to_zero, Call.pwrite fp_offset len_to_zero]
    match os.pwriteRes fp_offset len_to_zero with
    | Except.error e => ⟨e, "pwrite", calls, ok⟩
    | Except.ok _ =>
        punchMiddle os a ((fp_offset + len_to_zero) % W) (fp_length - len_to_zero) calls ok
  else punchMiddle os a fp_offset fp_length [Call.fstatfs] true

/-- worker_discard, Darwin variant (discard_stubs.c lines 57-132): query
the filesystem block size with fstatfs (recording errno and "fstatfs" on
failure), then run the head / middle / tail pipeline with
delete_alignment = (size_t) f_bsize. -/
def worker_discard_darwin (os : OSDarwin) (offset length : Nat) : JobResult :=
  match os.fstatfsRes with
  | Except.error e => ⟨e, "fstatfs", [Call.fstatfs], true⟩
  | Except.ok f_bsize => zeroHead os (f_bsize % W) (offset % W) (length % W)

/-- ENOTSUP on Linux, the value worker_discard preloads into errno_copy. -/
def ENOTSUP : Nat := 95

/-- worker_discard, Linux variant (discard_stubs.c lines 133-157): fstat
classifies the handle; block devices get a single ioctl(BLKDISCARD) with
the request arguments (errno_copy reset to 0 on success); regular files
get a single fallocate(FALLOC_FL_PUNCH_HOLE) with the request arguments.
On the fallocate success path the C falls off the end of the function
without resetting errno_copy, which therefore keeps the ENOTSUP preloaded
at line 59 (and error_fn keeps "unknown"). -/
def worker_discard_linux (os : OSLinux) (offset length : Nat) : JobResult :=
  match os.fstatRes with
  | Except.error e => ⟨e, "fstat", [Call.fstat], true⟩
  | Except.ok isblk =>
      if isblk then
        match os.blkdiscardRes offset length with
        | Except.error e => ⟨e, "ioctl", [Call.fstat, Call.blkdiscard offset length], true⟩
        | Except.ok _ => ⟨0, "unknown", [Call.fstat, Call.blkdiscard offset length], true⟩
      else
        match os.fallocateRes offset length with
        | Except.error e => ⟨e, "fallocate", [Call.fstat, Call.fallocate offset length], true⟩
        | Except.ok _ => ⟨ENOTSUP, "unknown", [Call.fstat, Call.fallocate offset length], true⟩

/-- result_discard (discard_stubs.c lines 160-170): it copies errno_copy
out of the job, declares a local error_fn WITHOUT initializing it from
job.error_fn, frees the job, and when errno_copy is nonzero raises
unix_error(errno_copy, error_fn, Nothing) with that uninitialized local.
The uninitialized local is modelled as the free parameter
uninitialized_error_fn; note that the job recorded error_fn is never
read. -/
def result_discard (job : JobResult) (uninitialized_error_fn : String) :
    Except (Nat × String) Unit :=
  if job.errno_copy ≠ 0 then Except.error (job.errno_copy, uninitialized_error_fn)
  else Except.ok ()

/-- Darwin oracle on which every OS call succeeds and fstatfs reports
block size a. -/
def osAllOk (a : Nat) : OSDarwin :=
  ⟨Except.ok a, fun _ _ => Except.ok (), fun _ _ => Except.ok ()⟩

/-- Darwin oracle where fstatfs reports block size a but every pwrite
fails with EIO (5). -/
def osPwriteFail (a : Nat) : OSDarwin :=
  ⟨Except.ok a, fun _ _ => Except.error 5, fun _ _ => Except.ok ()⟩

/-- Darwin oracle where fstatfs reports block size a but every
fcntl(F_PUNCHHOLE) fails with EINVAL (22). -/
def osPunchFail (a : Nat) : OSDarwin :=
  ⟨Except.ok a, fun _ _ => Except.ok (), fun _ _ => Except.error 22⟩

/-- Darwin oracle where fstatfs itself fails with EINVAL (22). -/
def osFstatfsFail : OSDarwin :=
  ⟨Except.error 22, fun _ _ => Except.ok (), fun _ _ => Except.ok ()⟩

/-- Linux oracle for a regular file on which every OS call succeeds. -/
def osLinuxFileOk : OSLinux :=
  ⟨Except.ok false, fun _ _ => Except.ok (), fun _ _ => Except.ok ()⟩

/-- Linux oracle for a block device on which every OS call succeeds. -/
def osLinuxBlkOk : OSLinux :=
  ⟨Except.ok true, fun _ _ => Except.ok (), fun _ _ => Except.ok ()⟩

/-! Arithmetic characterization of the bit-twiddling macros.  ALIGNUP and
ALIGNDOWN are written with masks and therefore compute the intended
round-up / round-down only when the alignment is a power of two; the
lemmas below characterize them in that case. -/

lemma W_pos : 0 < W := by norm_num [W]

lemma two_pow_lt_W {k : Nat} (hk : k < 64) : 2 ^ k < W :=
  Nat.pow_lt_pow_right (by norm_num) hk

lemma dvd_W {k : Nat} (hk : k ≤ 64) : 2 ^ k ∣ W :=
  pow_dvd_pow 2 hk

lemma mod_W_mod {k : Nat} (y : Nat) (hk : k ≤ 64) : y % W % 2 ^ k = y % 2 ^ k :=
  Nat.mod_mod_of_dvd y (dvd_W hk)

/-- Subtracting the remainder leaves the largest multiple of a below l. -/
lemma sub_mod_eq_mul_div (l a : Nat) : l - l % a = a * (l / a) := by
  have h := Nat.mod_add_div l a
  omega

lemma land_highmask {n k K : Nat} (hk : k ≤ K) (hn : n < 2 ^ K) :
    n &&& (2 ^ K - 2 ^ k) = n - n % 2 ^ k := by
  have hmask : 2 ^ K - 2 ^ k = (2 ^ (K - k) - 1) <<< k := by
    rw [Nat.shiftLeft_eq, Nat.sub_mul, one_mul, ← Nat.pow_add,
      Nat.sub_add_cancel hk]
  have hrhs : n - n % 2 ^ k = (n >>> k) <<< k := by
    rw [Nat.shiftRight_eq_div_pow, Nat.shiftLeft_eq, sub_mod_eq_mul_div,
      Nat.mul_comm]
  rw [hmask, hrhs]
  apply Nat.eq_of_testBit_eq
  intro i
  rw [Nat.testBit_land, Nat.testBit_shiftLeft, Nat.testBit_shiftLeft,
    Nat.testBit_shiftRight, Nat.testBit_two_pow_sub_one]
  by_cases hik : k ≤ i
  · by_cases hiK : i < K
    · have h1 : k + (i - k) = i := by omega
      have h2 : i - k < K - k := by omega
      simp [hik, h1, h2, hiK]
    · have hni : n.testBit i = false := by
        apply Nat.testBit_lt_two_pow
        exact lt_of_lt_of_le hn (Nat.pow_le_pow_right (by norm_num) (by omega))
      have h1 : k + (i - k) = i := by omega
      have h2 : ¬ (i - k < K - k) := by omega
      simp [hik, h1, h2, hni]
  · simp [hik]

lemma aligndown_eq {y k : Nat} (hk : k < 64) (hy : y < W) :
    ALIGNDOWN y (2 ^ k) = y - y % 2 ^ k := by
  have h1 : (2 : Nat) ^ k < W := two_pow_lt_W hk
  have hW : W = 2 ^ 64 := rfl
  unfold ALIGNDOWN
  have h2 : W - 2 ^ k < W := Nat.sub_lt W_pos (Nat.pos_pow_of_pos k (by norm_num))
  rw [Nat.mod_eq_of_lt h1, Nat.mod_eq_of_lt h2, Nat.land_comm, hW]
  exact land_highmask (le_of_lt hk) (by rw [← hW]; exact hy)

/-- If a divides x and x is positive then x - 1 has remainder a - 1. -/
lemma mod_pred {a x : Nat} (ha : 0 < a) (hdvd : a ∣ x) (hx : 0 < x) :
    (x - 1) % a = a - 1 := by
  obtain ⟨q, rfl⟩ := hdvd
  have hq : 0 < q := by
    rcases Nat.eq_zero_or_pos q with h | h
    · subst h; simp at hx
    · exact h
  have h1 : a * q - 1 = a * (q - 1) + (a - 1) := by
    have h2 : a * q = a * (q - 1) + a := by
      rcases Nat.exists_eq_add_of_le hq with ⟨q1, hq1⟩
      subst hq1
      simp [Nat.mul_add, Nat.add_comm]
    omega
  rw [h1, Nat.mul_add_mod, Nat.mod_eq_of_lt (by omega)]

/-- If a does not divide x then x - 1 has remainder one less than x. -/
lemma mod_sub_one {a x : Nat} (ha : 0 < a) (h : x % a ≠ 0) :
    (x - 1) % a = x % a - 1 := by
  have hma : x % a < a := Nat.mod_lt _ ha
  have h1 : x - 1 = a * (x / a) + (x % a - 1) := by
    have hd := Nat.div_add_mod x a
    omega
  rw [h1, Nat.mul_add_mod, Nat.mod_eq_of_lt (by omega)]

lemma alignup_closed {x k : Nat} (hk : k < 64) :
    ALIGNUP x (2 ^ k) =
      ((((x + (W - 1)) % W) - ((x + (W - 1)) % W) % 2 ^ k) + 2 ^ k) % W := by
  have hak : (2 : Nat) ^ k < W := two_pow_lt_W hk
  have ha0 : 0 < (2 : Nat) ^ k := Nat.pos_pow_of_pos k (by norm_num)
  have hW : W = 2 ^ 64 := rfl
  unfold ALIGNUP not64
  have h1 : (2 ^ k + (W - 1)) % W = 2 ^ k - 1 := by
    have h2 : 2 ^ k + (W - 1) = W + (2 ^ k - 1) := by omega
    rw [h2, Nat.add_mod_left, Nat.mod_eq_of_lt (by omega)]
  rw [h1, Nat.mod_eq_of_lt (by omega : 2 ^ k - 1 < W)]
  have h3 : (W - 1) - (2 ^ k - 1) = W - 2 ^ k := by omega
  rw [h3]
  have h4 : (x + (W - 1)) % W < W := Nat.mod_lt _ W_pos
  rw [hW] at h4 ⊢
  rw [land_highmask (le_of_lt hk) h4]

lemma alignup_of_mod_eq_zero {x k : Nat} (hk : k < 64) (hx : x < W)
    (h : x % 2 ^ k = 0) : ALIGNUP x (2 ^ k) = x := by
  have hak : (2 : Nat) ^ k < W := two_pow_lt_W hk
  have ha0 : 0 < (2 : Nat) ^ k := Nat.pos_pow_of_pos k (by norm_num)
  rw [alignup_closed hk]
  rcases Nat.eq_zero_or_pos x with hx0 | hx0
  · subst hx0
    have h1 : (0 + (W - 1)) % W = W - 1 := by
      rw [Nat.zero_add, Nat.mod_eq_of_lt (by omega)]
    have h2 : (W - 1) % 2 ^ k = 2 ^ k - 1 :=
      mod_pred ha0 (dvd_W (le_of_lt hk)) W_pos
    rw [h1, h2]
    have h3 : W - 1 - (2 ^ k - 1) + 2 ^ k = W := by omega
    rw [h3, Nat.mod_self]
  · have h1 : (x + (W - 1)) % W = x - 1 := by
      have h2 : x + (W - 1) = W + (x - 1) := by omega
      rw [h2, Nat.add_mod_left, Nat.mod_eq_of_lt (by omega)]
    have hxk : 2 ^ k ≤ x := Nat.le_of_dvd hx0 (Nat.dvd_of_mod_eq_zero h)
    have h2 : (x - 1) % 2 ^ k = 2 ^ k - 1 :=
      mod_pred ha0 (Nat.dvd_of_mod_eq_zero h) hx0
    rw [h1, h2]
    have h3 : x - 1 - (2 ^ k - 1) + 2 ^ k = x := by omega
    rw [h3, Nat.mod_eq_of_lt hx]

lemma alignup_of_mod_ne_zero {x k : Nat} (hk : k < 64) (hx : x < W)
    (h : x % 2 ^ k ≠ 0) :
    ALIGNUP x (2 ^ k) = (x + (2 ^ k - x % 2 ^ k)) % W := by
  have hak : (2 : Nat) ^ k < W := two_pow_lt_W hk
  have ha0 : 0 < (2 : Nat) ^ k := Nat.pos_pow_of_pos k (by norm_num)
  have hx0 : 0 < x := by
    rcases Nat.eq_zero_or_pos x with hx0 | hx0
    · subst hx0; simp at h
    · exact hx0
  rw [alignup_closed hk]
  have h1 : (x + (W - 1)) % W = x - 1 := by
    have h2 : x + (W - 1) = W + (x - 1) := by omega
    rw [h2, Nat.add_mod_left, Nat.mod_eq_of_lt (by omega)]
  rw [h1, mod_sub_one ha0 h]
  have hma : 0 < x % 2 ^ k := Nat.pos_of_ne_zero h
  have hmalt : x % 2 ^ k < 2 ^ k := Nat.mod_lt _ ha0
  have h3 : x - 1 - (x % 2 ^ k - 1) + 2 ^ k = x + (2 ^ k - x % 2 ^ k) := by
    have hmle : x % 2 ^ k ≤ x := Nat.mod_le _ _
    omega
  rw [h3]

lemma alignup_ne_of_mod_ne_zero {x k : Nat} (hk : k < 64) (hx : x < W)
    (h : x % 2 ^ k ≠ 0) : ALIGNUP x (2 ^ k) ≠ x := by
  have hak : (2 : Nat) ^ k < W := two_pow_lt_W hk
  have ha0 : 0 < (2 : Nat) ^ k := Nat.pos_pow_of_pos k (by norm_num)
  have hma : 0 < x % 2 ^ k := Nat.pos_of_ne_zero h
  have hmalt : x % 2 ^ k < 2 ^ k := Nat.mod_lt _ ha0
  rw [alignup_of_mod_ne_zero hk hx h]
  intro he
  rcases Nat.lt_or_ge (x + (2 ^ k - x % 2 ^ k)) W with h1 | h1
  · rw [Nat.mod_eq_of_lt h1] at he
    omega
  · have h2 : x + (2 ^ k - x % 2 ^ k) - W < W := by omega
    have h3 : (x + (2 ^ k - x % 2 ^ k)) % W = x + (2 ^ k - x % 2 ^ k) - W := by
      rw [Nat.mod_eq_sub_mod h1, Nat.mod_eq_of_lt h2]
    rw [h3] at he
    omega

lemma alignup_gap {x k : Nat} (hk : k < 64) (hx : x < W) (h : x % 2 ^ k ≠ 0) :
    (ALIGNUP x (2 ^ k) + (W - x % W)) % W = 2 ^ k - x % 2 ^ k := by
  have hak : (2 : Nat) ^ k < W := two_pow_lt_W hk
  have ha0 : 0 < (2 : Nat) ^ k := Nat.pos_pow_of_pos k (by norm_num)
  have hma : 0 < x % 2 ^ k := Nat.pos_of_ne_zero h
  rw [alignup_of_mod_ne_zero hk hx h, Nat.mod_eq_of_lt hx, Nat.mod_add_mod]
  have h1 : x + (2 ^ k - x % 2 ^ k) + (W - x) = W + (2 ^ k - x % 2 ^ k) := by
    omega
  rw [h1, Nat.add_mod_left, Nat.mod_eq_of_lt (by omega)]

/-! Invariants of the head / middle / tail pipeline. -/

lemma zeroTail_assertsOk (os : OSDarwin) (a x l : Nat) (calls : List Call)
    (h : l = 0 ∨ (l < a ∧ x % a = 0)) :
    (zeroTail os a x l calls true).assertsOk = true := by
  unfold zeroTail
  by_cases hl : 0 < l
  · have h1 : l < a := by rcases h with h | ⟨h1, _⟩ <;> omega
    have h2 : x % a = 0 := by
      rcases h with h | ⟨_, h2⟩
      · omega
      · exact h2
    rw [if_pos hl]
    cases os.pwriteRes x l <;> simp [h1, h2]
  · rw [if_neg hl]

lemma punchMiddle_assertsOk (os : OSDarwin) (k x l : Nat) (calls : List Call)
    (hk : k < 64) (hl : l < W) (hxa : x % 2 ^ k = 0) :
    (punchMiddle os (2 ^ k) x l calls true).assertsOk = true := by
  have ha0 : 0 < (2 : Nat) ^ k := Nat.pos_pow_of_pos k (by norm_num)
  have hmlt : l % 2 ^ k < 2 ^ k := Nat.mod_lt _ ha0
  have hmle : l % 2 ^ k ≤ l := Nat.mod_le _ _
  have hdvd2 : 2 ^ k ∣ (l - l % 2 ^ k) := ⟨l / 2 ^ k, sub_mod_eq_mul_div l (2 ^ k)⟩
  unfold punchMiddle
  rw [aligndown_eq hk hl]
  by_cases hc : 2 ^ k ≤ l - l % 2 ^ k
  · rw [if_pos hc]
    have hok : (true && decide (x % 2 ^ k = 0)) = true := by simp [hxa]
    cases os.punchholeRes x (l - l % 2 ^ k)
    · simpa using hxa
    · rw [hok]
      have hx2 : ((x + (l - l % 2 ^ k)) % W) % 2 ^ k = 0 := by
        rw [mod_W_mod _ (le_of_lt hk)]
        have hdvd1 : 2 ^ k ∣ x := Nat.dvd_of_mod_eq_zero hxa
        exact Nat.mod_eq_zero_of_dvd (Nat.dvd_add hdvd1 hdvd2)
      have hl2 : l - (l - l % 2 ^ k) = l % 2 ^ k := by omega
      rw [hl2]
      exact zeroTail_assertsOk os (2 ^ k) _ _ _ (Or.inr ⟨hmlt, hx2⟩)
  · rw [if_neg hc]
    have h0 : l - l % 2 ^ k = 0 :=
      Nat.eq_zero_of_dvd_of_lt hdvd2 (lt_of_not_ge hc)
    exact zeroTail_assertsOk os (2 ^ k) x l calls (Or.inr ⟨by omega, hxa⟩)

lemma punchMiddle_zero_assertsOk (os : OSDarwin) (a x : Nat) (calls : List Call)
    (ha : 0 < a) : (punchMiddle os a x 0 calls true).assertsOk = true := by
  unfold punchMiddle
  have h1 : ALIGNDOWN 0 a = 0 := Nat.and_zero _
  rw [h1, if_neg (by omega)]
  exact zeroTail_assertsOk os a x 0 calls (Or.inl rfl)

lemma zeroHead_assertsOk (os : OSDarwin) (k x l : Nat) (hk : k < 64)
    (hx : x < W) (hl : l < W) :
    (zeroHead os (2 ^ k) x l).assertsOk = true := by
  have ha0 : 0 < (2 : Nat) ^ k := Nat.pos_pow_of_pos k (by norm_num)
  unfold zeroHead
  by_cases hmod : x % 2 ^ k = 0
  · rw [if_neg (by simpa using (alignup_of_mod_eq_zero hk hx hmod))]
    exact punchMiddle_assertsOk os k x l _ hk hl hmod
  · have hne := alignup_ne_of_mod_ne_zero hk hx hmod
    rw [if_pos hne, alignup_gap hk hx hmod]
    have hma : 0 < x % 2 ^ k := Nat.pos_of_ne_zero hmod
    have hmalt : x % 2 ^ k < 2 ^ k := Nat.mod_lt _ ha0
    have hdlt : 2 ^ k - x % 2 ^ k < 2 ^ k := by omega
    have hmin : min l (2 ^ k - x % 2 ^ k) < 2 ^ k :=
      lt_of_le_of_lt (min_le_right _ _) hdlt
    have hok : decide (min l (2 ^ k - x % 2 ^ k) < 2 ^ k) = true := by
      simpa using hmin
    dsimp only
    cases os.pwriteRes x (min l (2 ^ k - x % 2 ^ k))
    · simpa using hmin
    · rw [hok]
      rcases le_or_lt (2 ^ k - x % 2 ^ k) l with hcase | hcase
      · rw [min_eq_right hcase]
        have hx2 : ((x + (2 ^ k - x % 2 ^ k)) % W) % 2 ^ k = 0 := by
          rw [mod_W_mod _ (le_of_lt hk)]
          have h3 : x + (2 ^ k - x % 2 ^ k) = 2 ^ k * (x / 2 ^ k) + 2 ^ k := by
            have hd := Nat.div_add_mod x (2 ^ k)
            omega
          rw [h3]
          exact Nat.mod_eq_zero_of_dvd
            (Nat.dvd_add (Dvd.intro _ rfl) (dvd_refl _))
        exact punchMiddle_assertsOk os k _ _ _ hk (by omega) hx2
      · rw [min_eq_left (le_of_lt hcase)]
        have hz : l - l = 0 := by omega
        rw [hz]
        exact punchMiddle_zero_assertsOk os (2 ^ k) _ _ ha0

/-- C9 (amended: power-of-two block sizes): for every request (any offset
and length) and every power-of-two block size reported by fstatfs, every
assert evaluated in the aligned hole-punch executor holds: the head
zero-fill length is strictly below the block size, whenever the punch step
runs the working offset is a multiple of the block size, and whenever the
tail zero-fill runs its length is strictly below the block size and its
offset is a multiple of the block size.  The unrestricted claim, for every
positive block size, is refuted by C9_counterexample below. -/
theorem worker_discard_darwin_assertsOk (os : OSDarwin) (offset length k : Nat)
    (hk : k < 64) (hb : os.fstatfsRes = Except.ok (2 ^ k)) :
    (worker_discard_darwin os offset length).assertsOk = true := by
  unfold worker_discard_darwin
  rw [hb]
  dsimp only
  rw [Nat.mod_eq_of_lt (two_pow_lt_W hk)]
  exact zeroHead_assertsOk os k _ _ hk (Nat.mod_lt _ W_pos) (Nat.mod_lt _ W_pos)

/-- C9 witness: block size 4096 = 2 ^ 12, offset 100, length 8192. -/
theorem worker_discard_darwin_assertsOk_witness :
    (osAllOk 4096).fstatfsRes = Except.ok (2 ^ 12)
    ∧ (worker_discard_darwin (osAllOk 4096) 100 8192).assertsOk = true :=
  ⟨rfl, worker_discard_darwin_assertsOk (osAllOk 4096) 100 8192 12 (by decide) rfl⟩

/-- C9 counterexample: the claim quantifies over every positive block
size, but with the positive non-power-of-two block size 3 reported by
fstatfs, offset 4 and length 5, ALIGNUP(4, 3) evaluates to 4 so no head
write happens even though 4 is not a multiple of 3, ALIGNDOWN(5, 3)
evaluates to 5 so the punch branch is taken, and its assert
fp_offset % delete_alignment == 0 evaluates to 4 % 3 == 0, which fails. -/
theorem worker_discard_darwin_asserts_cex :
    (worker_discard_darwin (osAllOk 3) 4 5).assertsOk = false := by decide

/-- C1: the claim says the outcome is Failure exactly when one of the OS
calls fails, and Success whenever every OS call performed succeeds.  The
code violates the second half on the Linux regular-file path: with fstat
and fallocate both succeeding (the oracle osLinuxFileOk makes every call
succeed), worker_discard falls off the end of the function without
resetting errno_copy, so the ENOTSUP (95) preloaded at the top is left in
place and result_discard delivers a Failure although no OS call failed. -/
theorem linux_all_success_delivers_failure :
    (worker_discard_linux osLinuxFileOk 0 4096).calls
        = [Call.fstat, Call.fallocate 0 4096]
    ∧ (worker_discard_linux osLinuxFileOk 0 4096).errno_copy = ENOTSUP
    ∧ result_discard (worker_discard_linux osLinuxFileOk 0 4096) "unknown"
        = Except.error (95, "unknown") := by
  refine ⟨rfl, rfl, rfl⟩

/-- C2: the claim says a Failure outcome carries the errno and the
FailingOperation tag exactly as the worker recorded them.  The errno is
indeed carried over unmodified, but result_discard never reads the
recorded error_fn field: it declares a local error_fn, leaves it
uninitialized, frees the job, and passes that uninitialized local to
unix_error.  Modelling the uninitialized local as the extra String
parameter, the delivered tag is that parameter for EVERY value of it,
independent of the "fstatfs" tag the worker recorded. -/
theorem result_discard_drops_recorded_tag :
    (worker_discard_darwin osFstatfsFail 0 4096).error_fn = "fstatfs"
    ∧ (worker_discard_darwin osFstatfsFail 0 4096).errno_copy = 22
    ∧ ∀ s : String,
        result_discard (worker_discard_darwin osFstatfsFail 0 4096) s
          = Except.error (22, s) :=
  ⟨rfl, rfl, fun _ => rfl⟩

/-- C8: for every handle classified as a block device (fstat reports
S_ISBLK) and every offset and length, the Linux worker issues a single
ioctl(BLKDISCARD) whose arguments are exactly the request offset and
length, and performs no other OS call: no filesystem block-size query and
no alignment logic (no pwrite, punch or fallocate appears in the trace),
whether the ioctl succeeds or fails. -/
theorem blkdiscard_single_exact_args (os : OSLinux) (offset length : Nat)
    (hb : os.fstatRes = Except.ok true) :
    (worker_discard_linux os offset length).calls
      = [Call.fstat, Call.blkdiscard offset length] := by
  unfold worker_discard_linux
  rw [hb]
  dsimp only
  cases os.blkdiscardRes offset length <;> rfl

/-- C8 witness: the spec scenario, a block device with offset 0 and
length 1048576. -/
theorem blkdiscard_single_exact_args_witness :
    osLinuxBlkOk.fstatRes = Except.ok true
    ∧ (worker_discard_linux osLinuxBlkOk 0 1048576).calls
        = [Call.fstat, Call.blkdiscard 0 1048576] :=
  ⟨rfl, blkdiscard_single_exact_args osLinuxBlkOk 0 1048576 rfl⟩

/-- C10: the claim says every temporary zero-fill buffer is released
immediately after its single write, on success and failure paths alike.
The code never calls free at all: on the request (offset 100, length 50,
block size 4096) the head buffer is allocated and written, and the trace
contains no free either when the pwrite succeeds or when it fails. -/
theorem zero_buffer_never_freed :
    (worker_discard_darwin (osAllOk 4096) 100 50).calls
        = [Call.fstatfs, Call.malloc 50, Call.pwrite 100 50]
    ∧ Call.free ∉ (worker_discard_darwin (osAllOk 4096) 100 50).calls
    ∧ (worker_discard_darwin (osPwriteFail 4096) 100 50).calls
        = [Call.fstatfs, Call.malloc 50, Call.pwrite 100 50]
    ∧ Call.free ∉ (worker_discard_darwin (osPwriteFail 4096) 100 50).calls := by
  refine ⟨by decide, by decide, by decide, by decide⟩

/-- C5 counterexample: offset 0 is block aligned and length 0 is a
multiple of the 4096-byte block size, yet no punch call occurs at all:
the trace is the lone fstatfs query. -/
theorem aligned_fast_path_cex :
    (worker_discard_darwin (osAllOk 4096) 0 0).calls = [Call.fstatfs]
    ∧ Call.punchhole 0 0 ∉ (worker_discard_darwin (osAllOk 4096) 0 0).calls := by
  refine ⟨by decide, by decide⟩

/-- C6 counterexample: the range (offset 4096, length 0) lies inside one
4096-byte block (length 0 < 4096 and no boundary is crossed), yet no
zero-fill write occurs at all: the trace is the lone fstatfs query. -/
theorem single_block_write_cex :
    (worker_discard_darwin (osAllOk 4096) 4096 0).calls = [Call.fstatfs]
    ∧ Call.pwrite 4096 0 ∉ (worker_discard_darwin (osAllOk 4096) 4096 0).calls := by
  refine ⟨by decide, by decide⟩

/-- C7 counterexample: for length 0 at the unaligned offset 100 the
worker does issue a write call: a zero-length pwrite at offset 100
(preceded by a zero-byte malloc), refuting the claim that no write is
issued for any offset. -/
theorem zero_length_no_syscall_cex :
    (worker_discard_darwin (osAllOk 4096) 100 0).calls
      = [Call.fstatfs, Call.malloc 0, Call.pwrite 100 0] := by decide

/-- C4: execution stops at the first failing sub-step and reports it.  If
the fstatfs block-size query fails with errno e, the worker returns at
once with errno e and tag "fstatfs", the trace being the lone fstatfs
call, so no write or punch was attempted and the on-disk state is
untouched.  If the head zero-fill write fails with errno e, the executor
returns at once with errno e and tag "pwrite" and no punch or tail write
is attempted after it.  If the aligned punch call fails with errno e, the
executor returns at once with errno e and tag "fcntl(F_PUNCHHOLE)" and the
punch is the last recorded call: no tail zero-fill write is attempted
after it. -/
theorem first_failure_stops (os : OSDarwin) (offset length a x l e : Nat)
    (calls : List Call) (ok : Bool) :
    (os.fstatfsRes = Except.error e →
      worker_discard_darwin os offset length
        = ⟨e, "fstatfs", [Call.fstatfs], true⟩)
    ∧ (ALIGNUP x a ≠ x →
       os.pwriteRes x (min l ((ALIGNUP x a + (W - x % W)) % W))
           = Except.error e →
       zeroHead os a x l
         = ⟨e, "pwrite",
             [Call.fstatfs,
              Call.malloc (min l ((ALIGNUP x a + (W - x % W)) % W)),
              Call.pwrite x (min l ((ALIGNUP x a + (W - x % W)) % W))],
             decide (min l ((ALIGNUP x a + (W - x % W)) % W) < a)⟩)
    ∧ (a ≤ ALIGNDOWN l a →
       os.punchholeRes x (ALIGNDOWN l a) = Except.error e →
       punchMiddle os a x l calls ok
         = ⟨e, "fcntl(F_PUNCHHOLE)",
             calls ++ [Call.punchhole x (ALIGNDOWN l a)],
             ok && decide (x % a = 0)⟩) := by
  refine ⟨?_, ?_, ?_⟩
  · intro he
    unfold worker_discard_darwin
    rw [he]
  · intro hne hfail
    unfold zeroHead
    rw [if_pos hne]
    dsimp only
    rw [hfail]
  · intro hge hfail
    unfold punchMiddle
    rw [if_pos hge]
    dsimp only
    rw [hfail]

/-- C4 witness: the fstatfs-failure case at (offset 0, length 4096), and
the spec scenario for the punch failure, block size 4096, working offset
4096, remaining length 4096 after an empty head. -/
theorem first_failure_stops_witness :
    worker_discard_darwin osFstatfsFail 0 4096
        = ⟨22, "fstatfs", [Call.fstatfs], true⟩
    ∧ zeroHead (osPwriteFail 4096) 4096 100 50
        = ⟨5, "pwrite",
            [Call.fstatfs, Call.malloc 50, Call.pwrite 100 50], true⟩
    ∧ punchMiddle (osPunchFail 4096) 4096 4096 4096 [Call.fstatfs] true
        = ⟨22, "fcntl(F_PUNCHHOLE)",
            [Call.fstatfs, Call.punchhole 4096 4096], true⟩ := by
  refine ⟨(first_failure_stops osFstatfsFail 0 4096 0 0 0 22 [] true).1 rfl,
    ?_, ?_⟩
  · have h := (first_failure_stops (osPwriteFail 4096) 0 0 4096 100 50 5
      [] true).2.1 (by decide) rfl
    exact h.trans (by decide)
  · have h := (first_failure_stops (osPunchFail 4096) 0 0 4096 4096 4096 22
      [Call.fstatfs] true).2.2 (by decide) rfl
    exact h.trans (by decide)

/-- C5 (amended: length a positive multiple of the block size): when the
offset is block aligned and the length is a positive multiple of the
power-of-two block size, the Darwin worker performs exactly one punch
call, with arguments exactly (offset, length), and no zero-fill write
(the trace is the fstatfs query followed by that one punch, whatever the
punch outcome is).  For length 0 (also a multiple of the block size) the
unrestricted claim fails: see aligned_fast_path_cex. -/
theorem aligned_fast_path (os : OSDarwin) (offset length k : Nat)
    (hk : k < 64) (hb : os.fstatfsRes = Except.ok (2 ^ k))
    (hoW : offset < W) (hlW : length < W)
    (ho : offset % 2 ^ k = 0) (hl : length % 2 ^ k = 0) (hpos : 0 < length) :
    (worker_discard_darwin os offset length).calls
      = [Call.fstatfs, Call.punchhole offset length] := by
  unfold worker_discard_darwin
  rw [hb]
  dsimp only
  rw [Nat.mod_eq_of_lt (two_pow_lt_W hk), Nat.mod_eq_of_lt hoW,
    Nat.mod_eq_of_lt hlW]
  unfold zeroHead
  rw [if_neg (by simpa using alignup_of_mod_eq_zero hk hoW ho)]
  unfold punchMiddle
  rw [aligndown_eq hk hlW, hl, Nat.sub_zero]
  have hge : 2 ^ k ≤ length := Nat.le_of_dvd hpos (Nat.dvd_of_mod_eq_zero hl)
  rw [if_pos hge]
  dsimp only
  cases os.punchholeRes offset length
  · rfl
  · unfold zeroTail
    rw [Nat.sub_self, if_neg (by omega)]
    rfl

/-- C5 witness: the spec scenario, block size 4096 = 2 ^ 12, offset 0,
length 4096. -/
theorem aligned_fast_path_witness :
    (osAllOk 4096).fstatfsRes = Except.ok (2 ^ 12)
    ∧ (0 : Nat) % 2 ^ 12 = 0 ∧ (4096 : Nat) % 2 ^ 12 = 0 ∧ (0 : Nat) < 4096
    ∧ (worker_discard_darwin (osAllOk 4096) 0 4096).calls
        = [Call.fstatfs, Call.punchhole 0 4096] :=
  ⟨rfl, rfl, by decide, by decide,
    aligned_fast_path (osAllOk 4096) 0 4096 12 (by decide) rfl (by decide)
      (by decide) rfl (by decide) (by decide)⟩

/-- C6 (amended: positive length): every request with 0 < length whose
range lies inside one filesystem block (offset % blockSize + length is at
most blockSize, and length < blockSize) produces exactly one zero-fill
write, spanning exactly [offset, offset + length), and no punch call, for
every power-of-two block size (the trace is fstatfs, the buffer malloc,
and that one pwrite, whatever the pwrite outcome is).  For length 0 with
an aligned offset the unrestricted claim fails: see
single_block_write_cex. -/
theorem single_block_single_write (os : OSDarwin) (offset length k : Nat)
    (hk : k < 64) (hb : os.fstatfsRes = Except.ok (2 ^ k))
    (hW2 : offset + length < W) (hpos : 0 < length)
    (hin : offset % 2 ^ k + length ≤ 2 ^ k) (hlen : length < 2 ^ k) :
    (worker_discard_darwin os offset length).calls
      = [Call.fstatfs, Call.malloc length, Call.pwrite offset length] := by
  have ha0 : 0 < (2 : Nat) ^ k := Nat.pos_pow_of_pos k (by norm_num)
  have hoW : offset < W := by omega
  have hlW : length < W := by omega
  unfold worker_discard_darwin
  rw [hb]
  dsimp only
  rw [Nat.mod_eq_of_lt (two_pow_lt_W hk), Nat.mod_eq_of_lt hoW,
    Nat.mod_eq_of_lt hlW]
  unfold zeroHead
  by_cases hmod : offset % 2 ^ k = 0
  · rw [if_neg (by simpa using alignup_of_mod_eq_zero hk hoW hmod)]
    unfold punchMiddle
    rw [aligndown_eq hk hlW, Nat.mod_eq_of_lt hlen, Nat.sub_self,
      if_neg (by omega)]
    unfold zeroTail
    rw [if_pos hpos]
    dsimp only
    cases os.pwriteRes offset length <;> rfl
  · rw [if_pos (alignup_ne_of_mod_ne_zero hk hoW hmod),
      alignup_gap hk hoW hmod]
    have hle : length ≤ 2 ^ k - offset % 2 ^ k := by
      have := Nat.mod_lt offset ha0
      omega
    rw [min_eq_left hle]
    dsimp only
    cases os.pwriteRes offset length
    · rfl
    · rw [Nat.sub_self]
      unfold punchMiddle
      rw [show ALIGNDOWN 0 (2 ^ k) = 0 from Nat.and_zero _,
        if_neg (by omega)]
      unfold zeroTail
      rw [if_neg (by omega)]

/-- C6 witness: the spec scenario, block size 4096 = 2 ^ 12, offset 100,
length 50. -/
theorem single_block_single_write_witness :
    (osAllOk 4096).fstatfsRes = Except.ok (2 ^ 12)
    ∧ (0 : Nat) < 50 ∧ 100 % 2 ^ 12 + 50 ≤ 2 ^ 12 ∧ (50 : Nat) < 2 ^ 12
    ∧ (worker_discard_darwin (osAllOk 4096) 100 50).calls
        = [Call.fstatfs, Call.malloc 50, Call.pwrite 100 50] :=
  ⟨rfl, by decide, by decide, by decide,
    single_block_single_write (osAllOk 4096) 100 50 12 (by decide) rfl
      (by decide) (by decide) (by decide) (by decide)⟩

/-- C7 (amended): for every request with length 0 the Darwin worker
mutates nothing and never issues a punch call, and the trace is fixed by
the alignment of the offset: when the offset is block aligned the worker
performs the fstatfs query only and succeeds (errno_copy 0, no write at
all); when the offset is unaligned the worker allocates an empty buffer
and issues exactly one zero-length pwrite at the offset, whatever that
pwrite returns, and the outcome is Success when that pwrite succeeds.
The unrestricted "no write is issued for any offset" fails: see
zero_length_no_syscall_cex. -/
theorem zero_length_request (os : OSDarwin) (offset k : Nat)
    (hk : k < 64) (hb : os.fstatfsRes = Except.ok (2 ^ k))
    (hoW : offset < W) :
    (offset % 2 ^ k = 0 →
       worker_discard_darwin os offset 0
         = ⟨0, "unknown", [Call.fstatfs], true⟩)
    ∧ (offset % 2 ^ k ≠ 0 →
       (worker_discard_darwin os offset 0).calls
           = [Call.fstatfs, Call.malloc 0, Call.pwrite offset 0]
       ∧ (os.pwriteRes offset 0 = Except.ok () →
           (worker_discard_darwin os offset 0).errno_copy = 0)) := by
  have ha0 : 0 < (2 : Nat) ^ k := Nat.pos_pow_of_pos k (by norm_num)
  have hred : worker_discard_darwin os offset 0
      = zeroHead os (2 ^ k) offset 0 := by
    unfold worker_discard_darwin
    rw [hb]
    dsimp only
    rw [Nat.mod_eq_of_lt (two_pow_lt_W hk), Nat.mod_eq_of_lt hoW,
      Nat.zero_mod]
  rw [hred]
  constructor
  · intro hmod
    unfold zeroHead
    rw [if_neg (by simpa using alignup_of_mod_eq_zero hk hoW hmod)]
    unfold punchMiddle
    rw [show ALIGNDOWN 0 (2 ^ k) = 0 from Nat.and_zero _, if_neg (by omega)]
    unfold zeroTail
    rw [if_neg (by omega)]
  · intro hmod
    unfold zeroHead
    rw [if_pos (alignup_ne_of_mod_ne_zero hk hoW hmod),
      alignup_gap hk hoW hmod, Nat.zero_min]
    dsimp only
    cases hres : os.pwriteRes offset 0
    · refine ⟨rfl, ?_⟩
      intro hok
      cases hok
    · have hcollapse : ∀ calls ok, punchMiddle os (2 ^ k) ((offset + 0) % W)
          0 calls ok = ⟨0, "unknown", calls, ok⟩ := by
        intro calls ok
        unfold punchMiddle
        rw [show ALIGNDOWN 0 (2 ^ k) = 0 from Nat.and_zero _,
          if_neg (by omega)]
        unfold zeroTail
        rw [if_neg (by omega)]
      rw [hcollapse]
      exact ⟨rfl, fun _ => rfl⟩

/-- C7 witness: block size 4096 = 2 ^ 12, with the aligned offset 4096
(only the fstatfs query, Success) and the unaligned offset 100 (exactly
one zero-length pwrite at 100, Success since it succeeds), both at
length 0. -/
theorem zero_length_request_witness :
    (osAllOk 4096).fstatfsRes = Except.ok (2 ^ 12)
    ∧ (4096 : Nat) % 2 ^ 12 = 0
    ∧ worker_discard_darwin (osAllOk 4096) 4096 0
        = ⟨0, "unknown", [Call.fstatfs], true⟩
    ∧ (100 : Nat) % 2 ^ 12 ≠ 0
    ∧ (worker_discard_darwin (osAllOk 4096) 100 0).calls
        = [Call.fstatfs, Call.malloc 0, Call.pwrite 100 0]
    ∧ (worker_discard_darwin (osAllOk 4096) 100 0).errno_copy = 0 :=
  ⟨rfl, by decide,
    (zero_length_request (osAllOk 4096) 4096 12 (by decide) rfl
      (by norm_num [W])).1 (by decide),
    by decide,
    ((zero_length_request (osAllOk 4096) 100 12 (by decide) rfl
      (by norm_num [W])).2 (by decide)).1,
    ((zero_length_request (osAllOk 4096) 100 12 (by decide) rfl
      (by norm_num [W])).2 (by decide)).2 rfl⟩

/-- C3: for every request whose range spans at least one full filesystem
block plus unaligned edges (offset unaligned, end of range unaligned, and
at least one full block between the first boundary and the end), with a
power-of-two block size and the OS calls succeeding, the Darwin worker
performs exactly a head zero-fill write at offset, one aligned punch, and
a tail zero-fill write, the three lengths sum to exactly the requested
length, and the head and tail lengths are each strictly less than the
block size. -/
theorem head_punch_tail_split (os : OSDarwin) (offset length k : Nat)
    (hk : k < 64) (hb : os.fstatfsRes = Except.ok (2 ^ k))
    (hW2 : offset + length < W)
    (h1 : offset % 2 ^ k ≠ 0) (h2 : (offset + length) % 2 ^ k ≠ 0)
    (h3 : (2 ^ k - offset % 2 ^ k) + 2 ^ k ≤ length)
    (hpw : ∀ o l, os.pwriteRes o l = Except.ok ())
    (hpu : ∀ o l, os.punchholeRes o l = Except.ok ()) :
    ∃ hd m t,
      (worker_discard_darwin os offset length).calls
        = [Call.fstatfs, Call.malloc hd, Call.pwrite offset hd,
           Call.punchhole (offset + hd) m,
           Call.malloc t, Call.pwrite (offset + hd + m) t]
      ∧ hd + m + t = length ∧ hd < 2 ^ k ∧ t < 2 ^ k := by
  have ha0 : 0 < (2 : Nat) ^ k := Nat.pos_pow_of_pos k (by norm_num)
  have hrlt : offset % 2 ^ k < 2 ^ k := Nat.mod_lt _ ha0
  have hr0 : 0 < offset % 2 ^ k := Nat.pos_of_ne_zero h1
  have hoW : offset < W := by omega
  have hlW : length < W := by omega
  have hd_le : 2 ^ k - offset % 2 ^ k ≤ length := by omega
  have hl1 : 2 ^ k ≤ length - (2 ^ k - offset % 2 ^ k) := by omega
  have hm_eq : (length - (2 ^ k - offset % 2 ^ k))
      - (length - (2 ^ k - offset % 2 ^ k)) % 2 ^ k
      = 2 ^ k * ((length - (2 ^ k - offset % 2 ^ k)) / 2 ^ k) :=
    sub_mod_eq_mul_div _ _
  have hdiv : 0 < (length - (2 ^ k - offset % 2 ^ k)) / 2 ^ k :=
    Nat.div_pos hl1 ha0
  have hge : 2 ^ k ≤ (length - (2 ^ k - offset % 2 ^ k))
      - (length - (2 ^ k - offset % 2 ^ k)) % 2 ^ k := by
    rw [hm_eq]
    calc 2 ^ k = 2 ^ k * 1 := (Nat.mul_one _).symm
    _ ≤ 2 ^ k * ((length - (2 ^ k - offset % 2 ^ k)) / 2 ^ k) :=
        Nat.mul_le_mul_left _ hdiv
  have hmod_le : (length - (2 ^ k - offset % 2 ^ k)) % 2 ^ k
      ≤ length - (2 ^ k - offset % 2 ^ k) := Nat.mod_le _ _
  have hkey : (offset + length) % 2 ^ k
      = (length - (2 ^ k - offset % 2 ^ k)) % 2 ^ k := by
    have hsplit : offset + length
        = 2 ^ k * (offset / 2 ^ k + 1)
          + (length - (2 ^ k - offset % 2 ^ k)) := by
      have hdm := Nat.div_add_mod offset (2 ^ k)
      rw [Nat.mul_add, Nat.mul_one]
      omega
    rw [hsplit, Nat.mul_add_mod]
  have ht_pos : 0 < (length - (2 ^ k - offset % 2 ^ k)) % 2 ^ k := by
    rw [← hkey]
    exact Nat.pos_of_ne_zero h2
  have htrace : (worker_discard_darwin os offset length).calls
      = [Call.fstatfs, Call.malloc (2 ^ k - offset % 2 ^ k),
         Call.pwrite offset (2 ^ k - offset % 2 ^ k),
         Call.punchhole (offset + (2 ^ k - offset % 2 ^ k))
           ((length - (2 ^ k - offset % 2 ^ k))
             - (length - (2 ^ k - offset % 2 ^ k)) % 2 ^ k),
         Call.malloc ((length - (2 ^ k - offset % 2 ^ k)) % 2 ^ k),
         Call.pwrite (offset + (2 ^ k - offset % 2 ^ k)
             + ((length - (2 ^ k - offset % 2 ^ k))
               - (length - (2 ^ k - offset % 2 ^ k)) % 2 ^ k))
           ((length - (2 ^ k - offset % 2 ^ k)) % 2 ^ k)] := by
    unfold worker_discard_darwin
    rw [hb]
    dsimp only
    rw [Nat.mod_eq_of_lt (two_pow_lt_W hk), Nat.mod_eq_of_lt hoW,
      Nat.mod_eq_of_lt hlW]
    unfold zeroHead
    rw [if_pos (alignup_ne_of_mod_ne_zero hk hoW h1), alignup_gap hk hoW h1,
      min_eq_right hd_le]
    dsimp only
    rw [hpw offset (2 ^ k - offset % 2 ^ k)]
    dsimp only
    rw [Nat.mod_eq_of_lt
      (show offset + (2 ^ k - offset % 2 ^ k) < W by omega)]
    unfold punchMiddle
    rw [aligndown_eq hk
      (show length - (2 ^ k - offset % 2 ^ k) < W by omega)]
    rw [if_pos hge]
    dsimp only
    rw [hpu (offset + (2 ^ k - offset % 2 ^ k))
      ((length - (2 ^ k - offset % 2 ^ k))
        - (length - (2 ^ k - offset % 2 ^ k)) % 2 ^ k)]
    dsimp only
    rw [Nat.mod_eq_of_lt
      (show offset + (2 ^ k - offset % 2 ^ k)
          + ((length - (2 ^ k - offset % 2 ^ k))
            - (length - (2 ^ k - offset % 2 ^ k)) % 2 ^ k) < W by omega)]
    rw [show (length - (2 ^ k - offset % 2 ^ k))
        - ((length - (2 ^ k - offset % 2 ^ k))
          - (length - (2 ^ k - offset % 2 ^ k)) % 2 ^ k)
        = (length - (2 ^ k - offset % 2 ^ k)) % 2 ^ k by omega]
    unfold zeroTail
    rw [if_pos ht_pos]
    dsimp only
    rw [hpw (offset + (2 ^ k - offset % 2 ^ k)
        + ((length - (2 ^ k - offset % 2 ^ k))
          - (length - (2 ^ k - offset % 2 ^ k)) % 2 ^ k))
      ((length - (2 ^ k - offset % 2 ^ k)) % 2 ^ k)]
    rfl
  refine ⟨2 ^ k - offset % 2 ^ k,
    (length - (2 ^ k - offset % 2 ^ k))
      - (length - (2 ^ k - offset % 2 ^ k)) % 2 ^ k,
    (length - (2 ^ k - offset % 2 ^ k)) % 2 ^ k,
    htrace, by omega, by omega, Nat.mod_lt _ ha0⟩

/-- C3 witness: block size 4096 = 2 ^ 12, offset 100, length 8192: head
3996, punch 4096 at offset 4096, tail 100 at offset 8192. -/
theorem head_punch_tail_split_witness :
    (osAllOk 4096).fstatfsRes = Except.ok (2 ^ 12)
    ∧ (100 : Nat) + 8192 < W
    ∧ 100 % 2 ^ 12 ≠ 0 ∧ (100 + 8192) % 2 ^ 12 ≠ 0
    ∧ (2 ^ 12 - 100 % 2 ^ 12) + 2 ^ 12 ≤ 8192
    ∧ ∃ hd m t,
        (worker_discard_darwin (osAllOk 4096) 100 8192).calls
          = [Call.fstatfs, Call.malloc hd, Call.pwrite 100 hd,
             Call.punchhole (100 + hd) m,
             Call.malloc t, Call.pwrite (100 + hd + m) t]
        ∧ hd + m + t = 8192 ∧ hd < 2 ^ 12 ∧ t < 2 ^ 12 :=
  ⟨rfl, by norm_num [W], by decide, by decide, by decide,
    head_punch_tail_split (osAllOk 4096) 100 8192 12 (by decide) rfl
      (by norm_num [W]) (by decide) (by decide) (by decide)
      (fun _ _ => rfl) (fun _ _ => rfl)⟩
